import Mathlib

/-!
Shallow embedding of the transfer coordination engine of the etransfer
daemon (src/src/etdc_etdserver.cc): the transfer registry, the local
server operations (requestFileWrite, requestFileRead, removeUUID,
sendFile, getFile), the proxy/wrapper control round trip for
remove-uuid, the data-server header validation and the push_n/pull_n
bulk copy loops, and the address designator codec decode_data_addr.

Concurrency is modelled sequentially: the two-level lock acquisition
loops always succeed at once (the locking itself is not the subject of
any claim settled here).  I/O on sockets and files is modelled with
explicit traces: a read call consumes the next element of a list of
per-call read results, and the bytes written are accumulated in the
returned trace.
-/

deriving instance DecidableEq for Except

namespace Etdc

/-- The open-mode enumeration (etdc openmode_type). -/
inductive OpenMode
  | Read | New | OverWrite | Resume | SkipExisting
deriving DecidableEq, Repr, BEq

/-- One constructor per distinct failure site of the embedded code
(the C++ raises ETDCASSERT/ETDCASSERTX exceptions with distinct
messages; the constructor names follow the spec's error taxonomy).
`outOfTrace` is a model device only: the finite list of per-call I/O
results was exhausted. -/
inductive Err
  | invalidArgument
  | alreadyBusy
  | invalidMode
  | pathConflict
  | openFail
  | seekFail
  | notInitialized
  | notForReading
  | notForWriting
  | allAddressesFailed
  | readMismatch
  | writeMismatch
  | shortRead
  | noUUID
  | noSz
  | badPushValue
  | badSz
  | noTransfer
  | modeIncompat
  | protocolErr
  | remoteErr (msg : String)
  | outOfTrace
deriving DecidableEq, Repr

/-- An open file descriptor: the byte contents of the file and the
current seek position. -/
structure FileHandle where
  content : List Nat
  pos : Nat
deriving DecidableEq, Repr

/-- transferprops_type: an owned fd, the normalized path and the open
mode (the per-record mutex is not represented in the sequential
model). -/
structure TransferRecord where
  path : String
  openMode : OpenMode
  fd : FileHandle
deriving DecidableEq, Repr

/-- A socket name: protocol, host, port. -/
structure SockName where
  protocol : String
  host : String
  port : Nat
deriving DecidableEq, Repr

/-- etd_state: the shared map uuid -> transfer record plus the
advertised data addresses. -/
structure EtdState where
  transfers : List (String × TransferRecord)
  dataaddrs : List SockName
deriving DecidableEq, Repr

/-- The filesystem seen by the daemon: path -> byte contents. -/
abbrev FileSys : Type := List (String × List Nat)

/-- Association-list lookup (std::map::find). -/
def alookup {β : Type} (k : String) : List (String × β) → Option β
  | [] => none
  | (k2, v) :: rest => if k2 = k then some v else alookup k rest

/-- find_if over the transfer map for a record with the given
normalized path (first match in map order). -/
def findByPath (p : String) : List (String × TransferRecord) → Option TransferRecord
  | [] => none
  | (_, v) :: rest => if v.path = p then some v else findByPath p rest

/-- std::map::erase of one key. -/
def eraseT (k : String) : List (String × TransferRecord) → List (String × TransferRecord)
  | [] => []
  | (k2, v) :: rest => if k2 = k then rest else (k2, v) :: eraseT k rest

/-! ### Characters and decimal numerals -/

/-- The character class [a-zA-Z0-9]. -/
def isAlphaNumCh (c : Char) : Bool := c.isAlpha || c.isDigit

/-- Whitespace as matched by the regex class backslash-s. -/
def wsChar (c : Char) : Bool :=
  c = ' ' || c = '\t' || c = '\x0b' || c = '\x0c' || c = '\r' || c = '\n'

/-- The decimal digit character for a digit value. -/
def digitChar : Nat → Char
  | 0 => '0' | 1 => '1' | 2 => '2' | 3 => '3' | 4 => '4'
  | 5 => '5' | 6 => '6' | 7 => '7' | 8 => '8' | _ => '9'

/-- Decimal digits, fuel-structured so that the kernel can evaluate
it; the fuel never runs out because the value shrinks by a factor ten
per step (see natDigits_eq). -/
def natDigitsAux : Nat → Nat → List Char
  | 0, n => [digitChar (n % 10)]
  | fuel + 1, n =>
    if n < 10 then [digitChar n] else natDigitsAux fuel (n / 10) ++ [digitChar (n % 10)]

/-- Decimal numeral of a natural number, most significant digit first
(what operator<< on an integer produces). -/
def natDigits (n : Nat) : List Char := natDigitsAux n n

/-- Value of a list of decimal digit characters. -/
def digitsToNat (ds : List Char) : Nat :=
  ds.foldl (fun a c => 10 * a + (c.toNat - 48)) 0

/-- Decimal rendering of an off_t value (operator<< on a signed
integer). -/
def intRepr (i : Int) : String :=
  if i < 0 then String.mk ('-' :: natDigits i.natAbs) else String.mk (natDigits i.toNat)

/-- The bytes of a string as written to a connection. -/
def strBytes (s : String) : List Nat := s.data.map Char.toNat

/-- string2off_t, i.e. std::stol: skip leading whitespace, optional
sign, at least one decimal digit, trailing characters ignored. -/
def string2off_t (s : String) : Option Int :=
  let num : List Char → Option Int := fun cs =>
    let ds := cs.takeWhile Char.isDigit
    if ds = [] then none else some (digitsToNat ds : Int)
  match s.data.dropWhile wsChar with
  | '-' :: rest => (num rest).map (fun v => -v)
  | '+' :: rest => num rest
  | cs => num cs

/-! ### The address designator codec (decode_data_addr) -/

/-- Split a list at the first occurrence of a character; `none` if the
character does not occur. -/
def splitFirst (c : Char) : List Char → Option (List Char × List Char)
  | [] => none
  | x :: xs =>
    if x = c then some ([], xs)
    else match splitFirst c xs with
      | some (a, b) => some (x :: a, b)
      | none => none

/-- Split a list at the last occurrence of a character. -/
def splitLast (c : Char) (l : List Char) : Option (List Char × List Char) :=
  match splitFirst c l.reverse with
  | some (a, b) => some (b.reverse, a.reverse)
  | none => none

/-- Split on dots, keeping empty segments. -/
def splitDot : List Char → List (List Char)
  | [] => [[]]
  | c :: rest =>
    match splitDot rest with
    | [] => [[]]
    | g :: gs => if c = '.' then [] :: g :: gs else (c :: g) :: gs

/-- One RFC1123 label as in the valid_host regex: a single
alphanumeric, or 2..63 characters with alphanumeric first and last and
alphanumeric-or-dash in between. -/
def validLabel : List Char → Bool
  | [] => false
  | [c] => isAlphaNumCh c
  | c :: rest =>
    isAlphaNumCh c && rest.length ≤ 62 &&
    (match rest.getLast? with
     | some l => isAlphaNumCh l && rest.dropLast.all (fun x => isAlphaNumCh x || x = '-')
     | none => false)

/-- The valid_host regex: dot-separated labels, at least one. -/
def validHost (cs : List Char) : Bool := (splitDot cs).all validLabel

/-- The character class of the ipv6_lit core: colon or alphanumeric. -/
def ipv6Core (c : Char) : Bool := c = ':' || isAlphaNumCh c

/-- The ipv6_lit regex: a nonempty core, an optional slash followed by
one to three digits, an optional percent followed by a nonempty
alphanumeric zone. -/
def validIpv6Body (cs : List Char) : Bool :=
  let core := cs.takeWhile ipv6Core
  let rest1 := cs.dropWhile ipv6Core
  let rest2 : Option (List Char) :=
    match rest1 with
    | '/' :: r =>
      let ds := r.takeWhile Char.isDigit
      if 1 ≤ ds.length && ds.length ≤ 3 then some (r.dropWhile Char.isDigit) else none
    | other => some other
  decide (core ≠ []) &&
  (match rest2 with
   | none => false
   | some [] => true
   | some ('%' :: z) => decide (z ≠ []) && z.all isAlphaNumCh
   | some _ => false)

/-- The bracketed host alternative of the rxSockName regex. -/
def bracketForm (cs : List Char) : Bool :=
  match cs with
  | c :: rest =>
    if c = '[' then
      match rest.getLast? with
      | some l => if l = ']' then validIpv6Body rest.dropLast else false
      | none => false
    else false
  | [] => false

/-- etdc::unbracket: strip one pair of surrounding square brackets if
present. -/
def unbracket (cs : List Char) : List Char :=
  match cs with
  | c :: rest =>
    if c = '[' then
      match rest.getLast? with
      | some l => if l = ']' then rest.dropLast else cs
      | none => cs
    else cs
  | [] => cs

/-- decode_data_addr: match the anchored regex
less-than (proto)(slash)(bracketed ipv6 | valid_host)(colon)(digits)greater-than,
check the DNS host length bound of RFC1123, and build the socket name
with the host unbracketed.  The regex groups are recovered
structurally: the protocol class excludes the slash, so the protocol
is everything before the first slash; the port digits contain no
colon, so the split is at the last colon. -/
def decode_data_addr (s : String) : Option SockName :=
  match s.data with
  | c :: rest =>
    if c = '<' then
      match rest.getLast? with
      | some e =>
        if e = '>' then
          let body := rest.dropLast
          match splitFirst '/' body with
          | some (proto, hp) =>
            if proto = [] then none
            else
              match splitLast ':' hp with
              | some (host, pstr) =>
                if decide (pstr ≠ []) && pstr.all Char.isDigit &&
                   (bracketForm host || (validHost host && host.length ≤ 255)) then
                  some ⟨String.mk proto, String.mk (unbracket host), digitsToNat pstr⟩
                else none
              | none => none
          | none => none
        else none
      | none => none
    else none
  | [] => none

/-- Modelled from the spec: the wire encoding of an address designator
(the stream output operator for sockname_type is not part of the
sources).  Section 6 of the spec gives the wire form as the protocol,
a slash, the host and a colon-separated decimal port, all between
angle brackets. -/
def encode_data_addr (sn : SockName) : String :=
  String.mk ('<' :: (sn.protocol.data ++ '/' :: (sn.host.data ++ ':' :: (natDigits sn.port ++ ['>']))))

/-- Modelled from the spec: a valid SockName per section 3 - the
protocol is one or more non-slash characters, the host is an RFC1123
DNS name of at most 255 bytes or a bracketed IPv6 literal, and the
port is at most 65535. -/
def validSockName (sn : SockName) : Prop :=
  sn.protocol.data ≠ [] ∧ '/' ∉ sn.protocol.data ∧
  (bracketForm sn.host.data = true ∨ (validHost sn.host.data = true ∧ sn.host.data.length ≤ 255)) ∧
  sn.port ≤ 65535

/-! ### File open and the registry operations -/

/-- The admissible modes of requestFileWrite. -/
def allowedModes : List OpenMode := [.New, .OverWrite, .Resume, .SkipExisting]

/-- Modelled from the spec: the open behaviour of the transport facade
(the etdc_file constructor is not part of the sources).  Per section 3
of the spec: New creates and fails if the target exists, OverWrite
creates or truncates, Resume opens keeping contents or creates,
SkipExisting refuses to open when the target exists, Read opens an
existing file and fails otherwise.  Returns the updated filesystem and
the contents of the opened file. -/
def openFile (fs : FileSys) (path : String) (mode : OpenMode) :
    Except Err (FileSys × List Nat) :=
  match mode with
  | .Read =>
    match alookup path fs with
    | some c => .ok (fs, c)
    | none => .error .openFail
  | .New =>
    match alookup path fs with
    | some _ => .error .openFail
    | none => .ok ((path, []) :: fs, [])
  | .SkipExisting =>
    match alookup path fs with
    | some _ => .error .openFail
    | none => .ok ((path, []) :: fs, [])
  | .OverWrite => .ok ((path, []) :: fs, [])
  | .Resume =>
    match alookup path fs with
    | some c => .ok (fs, c)
    | none => .ok ((path, []) :: fs, [])

/-- ETDServer::requestFileWrite.  `norm` abstracts
detail::normalize_path (external to the sources).  In source order:
the busy check on the server's own UUID, the admissible-mode check,
the normalized-path conflict check against every record, the open
(whose lseek to the end yields the size already on disk), and the
insertion of the new record. -/
def requestFileWrite (norm : String → String) (srv : String) (fs : FileSys)
    (st : EtdState) (path : String) (mode : OpenMode) :
    Except Err (String × Int) × EtdState × FileSys :=
  if (alookup srv st.transfers).isSome then (.error .alreadyBusy, st, fs)
  else
    let nPath := norm path
    if (allowedModes.contains mode) = false then (.error .invalidMode, st, fs)
    else if (findByPath nPath st.transfers).isSome then (.error .pathConflict, st, fs)
    else
      match openFile fs nPath mode with
      | .error e => (.error e, st, fs)
      | .ok (fs2, content) =>
        let fsize := content.length
        let record : TransferRecord := ⟨nPath, mode, ⟨content, fsize⟩⟩
        (.ok (srv, (fsize : Int)), ⟨(srv, record) :: st.transfers, st.dataaddrs⟩, fs2)

/-- ETDServer::requestFileRead.  In source order: the busy check, the
path check (a record with the same normalized path is tolerated only
in Read mode), the open for reading, the lseek to the end giving the
size, the seek to `alreadyhave` (POSIX lseek on a regular file fails
exactly for a negative target offset; seeking past the end succeeds),
and the insertion of the record whose descriptor is positioned at
`alreadyhave`. -/
def requestFileRead (norm : String → String) (srv : String) (fs : FileSys)
    (st : EtdState) (path : String) (alreadyhave : Int) :
    Except Err (String × Int) × EtdState × FileSys :=
  if (alookup srv st.transfers).isSome then (.error .alreadyBusy, st, fs)
  else
    let nPath := norm path
    let conflict : Bool :=
      match findByPath nPath st.transfers with
      | none => false
      | some r => r.openMode != .Read
    if conflict then (.error .pathConflict, st, fs)
    else
      match openFile fs nPath .Read with
      | .error e => (.error e, st, fs)
      | .ok (fs2, content) =>
        let sz := content.length
        if alreadyhave < 0 then (.error .seekFail, st, fs)
        else
          let record : TransferRecord := ⟨nPath, .Read, ⟨content, alreadyhave.toNat⟩⟩
          (.ok (srv, (sz : Int) - alreadyhave), ⟨(srv, record) :: st.transfers, st.dataaddrs⟩, fs2)

/-- ETDServer::removeUUID: the argument must be the server's own UUID;
with no record for it the call returns false, otherwise the descriptor
is closed, the entry erased and the call returns true.  The try-lock
back-off loop always succeeds at once in the sequential model. -/
def removeUUID (srv : String) (st : EtdState) (uuid : String) :
    Except Err Bool × EtdState :=
  if uuid ≠ srv then (.error .invalidArgument, st)
  else
    match alookup srv st.transfers with
    | none => (.ok false, st)
    | some _ => (.ok true, ⟨eraseT srv st.transfers, st.dataaddrs⟩)

/-! ### sendFile / getFile -/

/-- The 10 MiB transfer buffer size. -/
def dataBufSz : Nat := 10 * 1024 * 1024

/-- The data-channel header written by sendFile. -/
def mkHeader (dstUUID : String) (todo : Int) : String :=
  "\x7b uuid:" ++ dstUUID ++ ", sz:" ++ intRepr todo ++ "\x7d"

/-- Fuel-structured body of the sendFile inner loop; the fuel never
runs out because every iteration consumes at least one unit of the
remaining count (see sendChunks_eq). -/
def sendChunksAux : Nat → Nat → List Nat → Except Err Unit × List Nat
  | _, 0, _ => (.ok (), [])
  | 0, _ + 1, _ => (.ok (), [])
  | fuel + 1, todo + 1, avail =>
    let n := min (todo + 1) dataBufSz
    if avail.length < n then (.error .readMismatch, [])
    else
      let r := sendChunksAux fuel (todo + 1 - n) (avail.drop n)
      (r.1, avail.take n ++ r.2)

/-- The inner loop of ETDServer::sendFile: while bytes remain, read
min(todo, bufSz) bytes from the file (a read of fewer bytes than
requested fails the ETDCASSERTX), write the same count to the
connection, and decrement.  Returns the outcome and the bytes written
to the connection so far. -/
def sendChunks (todo : Nat) (avail : List Nat) : Except Err Unit × List Nat :=
  sendChunksAux todo todo avail

/-- ETDServer::sendFile.  In source order: the own-UUID check; the
outer loop is entered only when todo is positive; the registry lookup
and Read-mode check; the connection attempt over the address list
(abstracted to a flag: did any address succeed); the header write; the
chunk loop; one acknowledgement byte read.  Returns the outcome, the
bytes written to the data connection and the number of
acknowledgement bytes read. -/
def sendFile (srv : String) (st : EtdState) (srcUUID dstUUID : String)
    (todo : Int) (connectOk : Bool) : Except Err Bool × List Nat × Nat :=
  if srcUUID ≠ srv then (.error .invalidArgument, [], 0)
  else if todo ≤ 0 then (.ok true, [], 0)
  else
    match alookup srv st.transfers with
    | none => (.error .notInitialized, [], 0)
    | some tr =>
      if tr.openMode ≠ .Read then (.error .notForReading, [], 0)
      else if connectOk = false then (.error .allAddressesFailed, [], 0)
      else
        let hdr := strBytes (mkHeader dstUUID todo)
        let loop := sendChunks todo.toNat (tr.fd.content.drop tr.fd.pos)
        match loop.1 with
        | .error e => (.error e, hdr ++ loop.2, 0)
        | .ok _ => (.ok true, hdr ++ loop.2, 1)

/-- The inner loop of ETDServer::getFile: read up to bufSz bytes from
the connection; only a positive count is written to the file and
decremented (a zero read just loops).  Each list element is the result
of one connection read. -/
def recvLoop : Int → List Nat → Except Err Unit
  | todo, [] => if todo ≤ 0 then .ok () else .error .outOfTrace
  | todo, r :: rs =>
    if todo ≤ 0 then .ok ()
    else if 0 < r then recvLoop (todo - (r : Int)) rs else recvLoop todo rs

/-- The data-channel header written by getFile (the push form). -/
def mkGetHeader (srcUUID : String) (todo : Int) : String :=
  "\x7b uuid:" ++ srcUUID ++ ", push:1, sz:" ++ intRepr todo ++ "\x7d"

/-- ETDServer::getFile.  In source order: the own-UUID check on the
destination UUID; the outer loop entered only for positive todo; the
registry lookup and write-mode check (New, OverWrite or Resume, not
SkipExisting); the connection attempt; the header write; the receive
loop; one acknowledgement byte written.  Returns the outcome and the
bytes written to the data connection (the header, then the single
acknowledgement byte y on success). -/
def getFile (srv : String) (st : EtdState) (srcUUID dstUUID : String)
    (todo : Int) (connectOk : Bool) (recvs : List Nat) : Except Err Bool × List Nat :=
  if dstUUID ≠ srv then (.error .invalidArgument, [])
  else if todo ≤ 0 then (.ok true, [])
  else
    match alookup srv st.transfers with
    | none => (.error .notInitialized, [])
    | some tr =>
      if ([OpenMode.OverWrite, .New, .Resume].contains tr.openMode) = false then
        (.error .notForWriting, [])
      else if connectOk = false then (.error .allAddressesFailed, [])
      else
        let hdr := strBytes (mkGetHeader srcUUID todo)
        match recvLoop todo recvs with
        | .ok _ => (.ok true, hdr ++ ['y'.toNat])
        | .error e => (.error e, hdr)

/-! ### Control protocol: wrapper and proxy for remove-uuid -/

/-- The trailing part of the rxReply regex after the OK/ERR token: end
of line, or whitespace followed by the optional payload (the payload
group starts at the first non-whitespace character and runs to the end
of the line). -/
def matchTail (status : List Char) (rest : List Char) : Option (String × String) :=
  match rest with
  | [] => some (String.mk status, "")
  | c :: _ =>
    if wsChar c then some (String.mk status, String.mk (rest.dropWhile wsChar))
    else none

/-- The rxReply regex, case-insensitively anchored: an OK or ERR
token, then end of line or whitespace and an optional payload.
Returns the token as matched and the payload. -/
def matchReply (s : String) : Option (String × String) :=
  match s.data with
  | c1 :: c2 :: c3 :: rest =>
    if c1.toLower = 'o' && c2.toLower = 'k' then matchTail [c1, c2] (c3 :: rest)
    else if c1.toLower = 'e' && c2.toLower = 'r' && c3.toLower = 'r' then matchTail [c1, c2, c3] rest
    else none
  | [c1, c2] =>
    if c1.toLower = 'o' && c2.toLower = 'k' then some (String.mk [c1, c2], "") else none
  | _ => none

/-- The exception message of the failure sites reachable from
removeUUID (ETDCASSERT text). -/
def errMessage : Err → String
  | .invalidArgument => "Cannot remove someone else's UUID!"
  | _ => "unknown error"

/-- The ETDServerWrapper's handling of one remove-uuid command line:
invoke the local server; a true result is answered with OK, a false
result with the literal failure reply, and an exception is converted
to an ERR line carrying its message. -/
def wrapperRemoveUUIDLine (srv : String) (st : EtdState) (uuid : String) :
    String × EtdState :=
  match removeUUID srv st uuid with
  | (.ok true, st2) => ("OK", st2)
  | (.ok false, st2) => ("ERR Failed to remove UUID", st2)
  | (.error e, st2) => ("ERR " ++ errMessage e, st2)

/-- ETDProxy::removeUUID's treatment of the single reply line: a
non-conforming line is a protocol error, an ERR line becomes an
exception carrying the payload, and only an OK line yields the (only
possible) return value true. -/
def proxyRemoveUUIDParse (line : String) : Except Err Bool :=
  match matchReply line with
  | none => .error .protocolErr
  | some (status, info) => if status = "OK" then .ok true else .error (.remoteErr info)

/-- ETDProxy::removeUUID against a remote daemon, with the control
round trip composed directly: the wrapper runs the remote ETDServer
and the proxy parses the single reply line. -/
def proxyRemoveUUID (srv : String) (st : EtdState) (uuid : String) :
    Except Err Bool × EtdState :=
  let r := wrapperRemoveUUIDLine srv st uuid
  (proxyRemoveUUIDParse r.1, r.2)

/-- The rxRemain regex of ETDProxy::requestFileRead, anchored and
case-insensitive: the Remain: prefix, then an optional minus sign and
one or more digits, followed by string2off_t on the captured group. -/
def parseRemainLine (line : String) : Option Int :=
  let cs := line.data
  if (cs.take 7).map Char.toLower = "remain:".data then
    match cs.drop 7 with
    | c :: rest =>
      if c = '-' then
        if decide (rest ≠ []) && rest.all Char.isDigit then some (-(digitsToNat rest : Int))
        else none
      else if (c :: rest).all Char.isDigit then some ((digitsToNat (c :: rest) : Int))
      else none
    | [] => none
  else none

/-! ### Data server: header validation and push_n / pull_n -/

/-- Case-insensitive string equality (the comparator of the
key-to-value map of the data server). -/
def ciEq (a b : String) : Bool := a.data.map Char.toLower = b.data.map Char.toLower

/-- Find a key in the parsed header, case-insensitively. -/
def kvLookup (kv : List (String × String)) (k : String) : Option String :=
  match kv.find? (fun p => ciEq p.1 k) with
  | some p => some p.2
  | none => none

/-- The header validation of ETDDataServer::handle, in source order:
the uuid key must be present, the sz key must be present, and a push
key may only carry the value 1; the push flag is the presence of the
push key.  Returns the uuid value, the sz value (still a string at
this point) and the push flag. -/
def validateDataCmd (kv : List (String × String)) : Except Err (String × String × Bool) :=
  match kvLookup kv "uuid" with
  | none => .error .noUUID
  | some u =>
    match kvLookup kv "sz" with
    | none => .error .noSz
    | some szs =>
      match kvLookup kv "push" with
      | some v => if v ≠ "1" then .error .badPushValue else .ok (u, szs, true)
      | none => .ok (u, szs, false)

/-- The allowed modes for writing at the data server. -/
def allowedWriteModes : List OpenMode := [.New, .OverWrite, .Resume]

/-- ETDDataServer::handle from the validated header to the dispatch:
parse the size with string2off_t, look the uuid up in the shared
transfer map (the try-lock loop always succeeds at once in the
sequential model), check mode compatibility (push needs a Read-mode
record, pull needs a write-mode record that is not SkipExisting), and
report which bulk routine runs with which arguments. -/
def dataServerDispatch (kv : List (String × String)) (st : EtdState) :
    Except Err (Bool × String × Int × TransferRecord) :=
  match validateDataCmd kv with
  | .error e => .error e
  | .ok (u, szs, push) =>
    match string2off_t szs with
    | none => .error .badSz
    | some sz =>
      match alookup u st.transfers with
      | none => .error .noTransfer
      | some record =>
        if push then
          if record.openMode = .Read then .ok (true, u, sz, record) else .error .modeIncompat
        else
          if allowedWriteModes.contains record.openMode then .ok (false, u, sz, record)
          else .error .modeIncompat

/-- ETDDataServer::push_n: while bytes remain, read
min(n, bufSz) bytes from the file and write the same count to the
connection; either call transferring a different count than requested
fails its ETDCASSERTX at once.  The two lists carry the per-call
results of the reads and the writes. -/
def push_n : Nat → List Nat → List Nat → Except Err Unit
  | 0, _, _ => .ok ()
  | n + 1, r :: rs, ws =>
    let nRead := min (n + 1) dataBufSz
    if r ≠ nRead then .error .readMismatch
    else
      match ws with
      | w :: ws2 => if w ≠ nRead then .error .writeMismatch else push_n (n + 1 - nRead) rs ws2
      | [] => .error .outOfTrace
  | _ + 1, [], _ => .error .outOfTrace

/-- ETDDataServer::pull_n: bytes between rdPos and wrEnd are buffered
payload that overshot the header read.  Each iteration reads up to
min(n - buffered, bufSz - wrEnd) further bytes; it is an error
(the spec's ShortRead) exactly when afterwards no byte at all is
available to flush; otherwise the available bytes are flushed to the
file (a partial file write fails its ETDCASSERTX) and the loop
continues with the whole buffer free.  The first list carries the
per-call connection read results, the second the per-call file write
results. -/
def pull_n (bufSz : Nat) : List Nat → List Nat → Nat → Nat → Nat → Except Err Unit
  | _, _, 0, _, _ => .ok ()
  | r :: rs, ws, n + 1, rdPos, wrEnd =>
    let nRead := min (n + 1 + rdPos - wrEnd) (bufSz - wrEnd)
    let aRead := min r nRead
    let wrEnd2 := wrEnd + aRead
    if wrEnd2 - rdPos = 0 then .error .shortRead
    else
      match ws with
      | w :: ws2 =>
        if w ≠ wrEnd2 - rdPos then .error .writeMismatch
        else pull_n bufSz rs ws2 (n + 1 - (wrEnd2 - rdPos)) 0 0
      | [] => .error .outOfTrace
  | [], _, _ + 1, _, _ => .error .outOfTrace

/-! ### Helper lemmas -/

theorem mkOfData (s : String) : String.mk s.data = s := rfl

theorem dataOfMk (l : List Char) : (String.mk l).data = l := rfl

theorem digitChar_toNat (d : Nat) (h : d < 10) : (digitChar d).toNat = 48 + d := by
  interval_cases d <;> rfl

theorem digitChar_isDigit (d : Nat) : (digitChar d).isDigit = true := by
  unfold digitChar
  split <;> rfl

theorem digitsToNat_concat (xs : List Char) (c : Char) :
    digitsToNat (xs ++ [c]) = 10 * digitsToNat xs + (c.toNat - 48) := by
  unfold digitsToNat
  rw [List.foldl_append]
  rfl

theorem natDigitsAux_congr (n : Nat) : ∀ f1 f2, n ≤ f1 → n ≤ f2 →
    natDigitsAux f1 n = natDigitsAux f2 n := by
  induction n using Nat.strong_induction_on with
  | _ n ih =>
    intro f1 f2 h1 h2
    cases f1 with
    | zero =>
      cases f2 with
      | zero => rfl
      | succ b =>
        have hn : n = 0 := by omega
        subst hn
        simp [natDigitsAux]
    | succ a =>
      cases f2 with
      | zero =>
        have hn : n = 0 := by omega
        subst hn
        simp [natDigitsAux]
      | succ b =>
        simp only [natDigitsAux]
        split
        · rfl
        · rw [ih (n / 10) (Nat.div_lt_self (by omega) (by omega)) a b (by omega) (by omega)]

theorem natDigits_eq (n : Nat) :
    natDigits n = if n < 10 then [digitChar n]
                  else natDigits (n / 10) ++ [digitChar (n % 10)] := by
  cases n with
  | zero => simp [natDigits, natDigitsAux]
  | succ m =>
    show natDigitsAux (m + 1) (m + 1) = _
    simp only [natDigitsAux]
    split
    · rfl
    · rw [natDigitsAux_congr ((m + 1) / 10) m ((m + 1) / 10) (by omega) (by omega)]
      rfl

theorem digitsToNat_natDigits (n : Nat) : digitsToNat (natDigits n) = n := by
  induction n using Nat.strong_induction_on with
  | _ n ih =>
    rw [natDigits_eq]
    split
    · rename_i h
      show digitsToNat ([] ++ [digitChar n]) = n
      rw [digitsToNat_concat, digitChar_toNat n h]
      simp [digitsToNat]
    · rename_i h
      rw [digitsToNat_concat, ih (n / 10) (Nat.div_lt_self (by omega) (by omega)),
          digitChar_toNat (n % 10) (Nat.mod_lt n (by omega))]
      omega

theorem natDigits_ne_nil (n : Nat) : natDigits n ≠ [] := by
  rw [natDigits_eq]
  split
  · simp
  · simp

theorem natDigits_isDigit (n : Nat) : ∀ c ∈ natDigits n, c.isDigit = true := by
  induction n using Nat.strong_induction_on with
  | _ n ih =>
    rw [natDigits_eq]
    split
    · intro c hc
      simp only [List.mem_singleton] at hc
      subst hc
      exact digitChar_isDigit n
    · intro c hc
      rw [List.mem_append, List.mem_singleton] at hc
      rcases hc with hc | hc
      · exact ih (n / 10) (Nat.div_lt_self (by omega) (by omega)) c hc
      · subst hc
        exact digitChar_isDigit (n % 10)

theorem isDigit_ne_colon {c : Char} (h : c.isDigit = true) : c ≠ ':' := by
  intro he
  subst he
  simp [Char.isDigit] at h

theorem splitFirst_not_mem (c : Char) (p rest : List Char) (hp : c ∉ p) :
    splitFirst c (p ++ c :: rest) = some (p, rest) := by
  induction p with
  | nil => simp [splitFirst]
  | cons x xs ihx =>
    have hx : x ≠ c := by
      intro he
      exact hp (he ▸ List.mem_cons_self x xs)
    have hxs : c ∉ xs := fun hm => hp (List.mem_cons_of_mem x hm)
    simp only [List.cons_append, splitFirst, if_neg hx, List.append_eq, ihx hxs]

theorem splitLast_not_mem (c : Char) (h d : List Char) (hd : c ∉ d) :
    splitLast c (h ++ c :: d) = some (h, d) := by
  unfold splitLast
  have : (h ++ c :: d).reverse = d.reverse ++ c :: h.reverse := by
    simp [List.reverse_append]
  rw [this, splitFirst_not_mem c d.reverse h.reverse (by simpa using hd)]
  simp

theorem splitDot_ne_nil (cs : List Char) : splitDot cs ≠ [] := by
  cases cs with
  | nil => simp [splitDot]
  | cons c rest =>
    unfold splitDot
    cases splitDot rest with
    | nil => simp
    | cons g gs =>
      dsimp only
      split <;> simp

theorem validLabel_head {c : Char} {g : List Char} (h : validLabel (c :: g) = true) :
    isAlphaNumCh c = true := by
  cases g with
  | nil => simpa [validLabel] using h
  | cons x xs =>
    unfold validLabel at h
    simp only [Bool.and_eq_true] at h
    exact h.1.1

theorem validHost_head {c : Char} {t : List Char} (h : validHost (c :: t) = true) :
    isAlphaNumCh c = true := by
  unfold validHost splitDot at h
  rcases hs : splitDot t with _ | ⟨g, gs⟩
  · exact absurd hs (splitDot_ne_nil t)
  · rw [hs] at h
    dsimp only at h
    by_cases hc : c = '.'
    · rw [if_pos hc] at h
      simp [List.all_cons, validLabel] at h
    · rw [if_neg hc] at h
      rw [List.all_cons, Bool.and_eq_true] at h
      exact validLabel_head h.1

theorem unbracket_of_validHost {cs : List Char} (h : validHost cs = true) :
    unbracket cs = cs := by
  cases cs with
  | nil => rfl
  | cons c t =>
    have hc : isAlphaNumCh c = true := validHost_head h
    have : c ≠ '[' := by
      intro he
      subst he
      simp [isAlphaNumCh, Char.isAlpha, Char.isUpper, Char.isLower, Char.isDigit] at hc
    simp [unbracket, this]

theorem sendChunksAux_congr (t : Nat) : ∀ (f1 f2 : Nat) (avail : List Nat),
    t ≤ f1 → t ≤ f2 → sendChunksAux f1 t avail = sendChunksAux f2 t avail := by
  induction t using Nat.strong_induction_on with
  | _ t ih =>
    intro f1 f2 avail h1 h2
    cases t with
    | zero => cases f1 <;> cases f2 <;> rfl
    | succ m =>
      obtain ⟨a, rfl⟩ : ∃ a, f1 = a + 1 := ⟨f1 - 1, by omega⟩
      obtain ⟨b, rfl⟩ : ∃ b, f2 = b + 1 := ⟨f2 - 1, by omega⟩
      have hbuf : 0 < dataBufSz := by norm_num [dataBufSz]
      have hn2 : min (m + 1) dataBufSz ≤ m + 1 := Nat.min_le_left _ _
      have hn1 : 1 ≤ min (m + 1) dataBufSz := by omega
      simp only [sendChunksAux]
      split
      · rfl
      · rw [ih (m + 1 - min (m + 1) dataBufSz) (by omega) a b
            (avail.drop (min (m + 1) dataBufSz)) (by omega) (by omega)]

theorem sendChunks_succ (m : Nat) (avail : List Nat) :
    sendChunks (m + 1) avail =
      if avail.length < min (m + 1) dataBufSz then (.error .readMismatch, [])
      else
        ((sendChunks (m + 1 - min (m + 1) dataBufSz) (avail.drop (min (m + 1) dataBufSz))).1,
          avail.take (min (m + 1) dataBufSz) ++
            (sendChunks (m + 1 - min (m + 1) dataBufSz)
              (avail.drop (min (m + 1) dataBufSz))).2) := by
  have hbuf : 0 < dataBufSz := by norm_num [dataBufSz]
  have hn2 : min (m + 1) dataBufSz ≤ m + 1 := Nat.min_le_left _ _
  have hn1 : 1 ≤ min (m + 1) dataBufSz := by omega
  show sendChunksAux (m + 1) (m + 1) avail = _
  simp only [sendChunksAux]
  split
  · rfl
  · rw [sendChunksAux_congr (m + 1 - min (m + 1) dataBufSz) m
        (m + 1 - min (m + 1) dataBufSz) _ (by omega) (by omega)]
    rfl

theorem sendChunks_ok (t : Nat) : ∀ (avail : List Nat), t ≤ avail.length →
    sendChunks t avail = (.ok (), avail.take t) := by
  induction t using Nat.strong_induction_on with
  | _ t ih =>
    intro avail h
    cases t with
    | zero => simp [sendChunks, sendChunksAux]
    | succ m =>
      have hbuf : 0 < dataBufSz := by norm_num [dataBufSz]
      have hn2 : min (m + 1) dataBufSz ≤ m + 1 := Nat.min_le_left _ _
      have hn1 : 1 ≤ min (m + 1) dataBufSz := by omega
      have hrec := ih (m + 1 - min (m + 1) dataBufSz) (by omega)
        (avail.drop (min (m + 1) dataBufSz)) (by rw [List.length_drop]; omega)
      rw [sendChunks_succ]
      rw [if_neg (show ¬ (avail.length < min (m + 1) dataBufSz) by omega), hrec]
      dsimp only
      rw [← List.take_add avail (min (m + 1) dataBufSz) (m + 1 - min (m + 1) dataBufSz),
          show min (m + 1) dataBufSz + (m + 1 - min (m + 1) dataBufSz) = m + 1 by omega]

theorem isDigit_ne_minus {c : Char} (h : c.isDigit = true) : c ≠ '-' := by
  intro he
  subst he
  simp [Char.isDigit] at h

theorem parseRemain_intRepr (i : Int) : parseRemainLine ("Remain:" ++ intRepr i) = some i := by
  have hlen : ("Remain:".data).length = 7 := by decide
  simp only [parseRemainLine, String.data_append, List.take_left' hlen, List.drop_left' hlen]
  rw [if_pos (by decide)]
  by_cases hneg : i < 0
  · simp only [intRepr, if_pos hneg, dataOfMk, if_true]
    rw [if_pos ?hc]
    case hc =>
      simp only [Bool.and_eq_true, decide_eq_true_eq, List.all_eq_true]
      exact ⟨natDigits_ne_nil _, natDigits_isDigit _⟩
    rw [digitsToNat_natDigits]
    congr 1
    omega
  · simp only [intRepr, if_neg hneg, dataOfMk]
    rcases hnd : natDigits i.toNat with _ | ⟨c, t⟩
    · exact absurd hnd (natDigits_ne_nil _)
    · have hc : c.isDigit = true := natDigits_isDigit i.toNat c (hnd ▸ List.mem_cons_self c t)
      have hall : (c :: t).all Char.isDigit = true := by
        simp only [List.all_eq_true]
        exact fun x hx => natDigits_isDigit i.toNat x (hnd ▸ hx)
      show (if c = '-' then
              if (decide (t ≠ []) && t.all Char.isDigit) = true then
                some (-(digitsToNat t : Int))
              else none
            else if (c :: t).all Char.isDigit = true then some ((digitsToNat (c :: t) : Int))
            else none) = some i
      rw [if_neg (isDigit_ne_minus hc), if_pos hall, ← hnd, digitsToNat_natDigits]
      congr 1
      omega

theorem sendChunks_err (t : Nat) : ∀ (avail : List Nat), avail.length < t →
    (sendChunks t avail).1 = .error .readMismatch := by
  induction t using Nat.strong_induction_on with
  | _ t ih =>
    intro avail h
    cases t with
    | zero => omega
    | succ m =>
      have hbuf : 0 < dataBufSz := by norm_num [dataBufSz]
      have hn2 : min (m + 1) dataBufSz ≤ m + 1 := Nat.min_le_left _ _
      have hn1 : 1 ≤ min (m + 1) dataBufSz := by omega
      rw [sendChunks_succ]
      by_cases hsmall : avail.length < min (m + 1) dataBufSz
      · rw [if_pos hsmall]
      · rw [if_neg hsmall]
        dsimp only
        exact ih (m + 1 - min (m + 1) dataBufSz) (by omega)
          (avail.drop (min (m + 1) dataBufSz)) (by rw [List.length_drop]; omega)

theorem validHost_nil : validHost [] = false := rfl

theorem bracketForm_of_validHost {cs : List Char} (h : validHost cs = true) :
    bracketForm cs = false := by
  cases cs with
  | nil => exact absurd h (by rw [validHost_nil]; simp)
  | cons c t =>
    have hc : isAlphaNumCh c = true := validHost_head h
    have hne : c ≠ '[' := by
      intro he
      subst he
      simp [isAlphaNumCh, Char.isAlpha, Char.isUpper, Char.isLower, Char.isDigit] at hc
    simp [bracketForm, hne]

theorem pull_n_ne_shortRead (rs : List Nat) :
    ∀ (ws : List Nat) (bufSz n rdPos wrEnd : Nat),
    rdPos ≤ wrEnd → wrEnd < bufSz → wrEnd - rdPos ≤ n →
    (∀ r ∈ rs, 0 < r) →
    pull_n bufSz rs ws n rdPos wrEnd ≠ .error .shortRead := by
  induction rs with
  | nil =>
    intro ws bufSz n rdPos wrEnd _ _ _ _
    cases n with
    | zero => simp [pull_n]
    | succ m => simp [pull_n]
  | cons r rst ih =>
    intro ws bufSz n rdPos wrEnd h1 h2 h3 hpos
    cases n with
    | zero => simp [pull_n]
    | succ m =>
      have hr : 0 < r := hpos r (List.mem_cons_self r rst)
      unfold pull_n
      rw [if_neg ?hne]
      case hne =>
        have hn1 : 1 ≤ min (m + 1 + rdPos - wrEnd) (bufSz - wrEnd) ∨ wrEnd - rdPos > 0 := by
          omega
        omega
      cases ws with
      | nil => simp
      | cons w ws2 =>
        dsimp only
        split
        · simp
        · exact ih ws2 bufSz _ 0 0 (Nat.le_refl 0) (by omega) (by omega)
            (fun x hx => hpos x (List.mem_cons_of_mem r hx))

/-! ### Claim theorems -/

/-- C9: for every sendFile or getFile call whose own-UUID check passes
and whose byte count is zero or negative, the call returns true at
once, writing no header and no bytes to any data connection, reading
or writing no acknowledgement, regardless of the registry contents
(no record lookup or mode check happens) and even when no address
would accept a connection. -/
theorem C9_nonpositive_count_short_circuit (srv dst src : String) (st : EtdState)
    (todo : Int) (c : Bool) (recvs : List Nat) (h : todo ≤ 0) :
    sendFile srv st srv dst todo c = (.ok true, [], 0) ∧
    getFile srv st src srv todo c recvs = (.ok true, []) := by
  constructor
  · unfold sendFile
    rw [if_neg (by simp), if_pos h]
  · unfold getFile
    rw [if_neg (by simp), if_pos h]

/-- C9 witness: a concrete call with a negative count on an empty
registry with no reachable address. -/
theorem C9_witness :
    sendFile "u" ⟨[], []⟩ "u" "d" (-3) false = (.ok true, [], 0) ∧
    getFile "u" ⟨[], []⟩ "s" "u" (-3) false [] = (.ok true, []) :=
  C9_nonpositive_count_short_circuit "u" "d" "s" ⟨[], []⟩ (-3) false [] (by decide)

/-- C8: registration is atomic on failure - whenever requestFileWrite
or requestFileRead returns an error, the shared transfer map is
exactly the one before the call. -/
theorem C8_registration_error_atomic (norm : String → String) (srv : String)
    (fs : FileSys) (st : EtdState) (path : String) (mode : OpenMode) (ah : Int) :
    (∀ e r2, requestFileWrite norm srv fs st path mode = (.error e, r2) →
      r2.1.transfers = st.transfers) ∧
    (∀ e r2, requestFileRead norm srv fs st path ah = (.error e, r2) →
      r2.1.transfers = st.transfers) := by
  constructor
  · intro e r2 hcall
    simp only [requestFileWrite] at hcall
    split at hcall
    · injection hcall with h1 h2
      rw [← h2]
    · split at hcall
      · injection hcall with h1 h2
        rw [← h2]
      · split at hcall
        · injection hcall with h1 h2
          rw [← h2]
        · split at hcall
          · injection hcall with h1 h2
            rw [← h2]
          · injection hcall with h1 h2
            exact absurd h1 (by simp)
  · intro e r2 hcall
    simp only [requestFileRead] at hcall
    split at hcall
    · injection hcall with h1 h2
      rw [← h2]
    · split at hcall
      · injection hcall with h1 h2
        rw [← h2]
      · split at hcall
        · injection hcall with h1 h2
          rw [← h2]
        · split at hcall
          · injection hcall with h1 h2
            rw [← h2]
          · injection hcall with h1 h2
            exact absurd h1 (by simp)

/-- C8 witness: a failing write request (inadmissible Read mode) and a
failing read request (seek to a negative offset) both leave the
transfer map untouched. -/
theorem C8_witness :
    ((requestFileWrite (fun p => p) "u" [("/f", [1])] ⟨[], []⟩ "/f" .Read).2.1.transfers
      = (⟨[], []⟩ : EtdState).transfers) ∧
    ((requestFileRead (fun p => p) "u" [("/f", [1])] ⟨[], []⟩ "/f" (-2)).2.1.transfers
      = (⟨[], []⟩ : EtdState).transfers) :=
  ⟨(C8_registration_error_atomic (fun p => p) "u" [("/f", [1])] ⟨[], []⟩ "/f" .Read 0).1
      .invalidMode _ (by decide),
   (C8_registration_error_atomic (fun p => p) "u" [("/f", [1])] ⟨[], []⟩ "/f" .Read (-2)).2
      .seekFail _ (by decide)⟩

/-- C5 counterexample: a requestFileWrite call whose path matches an
existing record does not always fail with the path-conflict error.
With the caller's own UUID already registered on that very path the
failure is the already-busy error, and with an inadmissible mode it is
the invalid-mode error. -/
theorem C5_counterexample :
    (findByPath "/p" (⟨[("u", ⟨"/p", .Read, ⟨[], 0⟩⟩)], []⟩ : EtdState).transfers).isSome
      = true ∧
    (requestFileWrite (fun p => p) "u" [] ⟨[("u", ⟨"/p", .Read, ⟨[], 0⟩⟩)], []⟩ "/p" .New).1
      = .error .alreadyBusy ∧
    (findByPath "/p" (⟨[("v", ⟨"/p", .Read, ⟨[], 0⟩⟩)], []⟩ : EtdState).transfers).isSome
      = true ∧
    (requestFileWrite (fun p => p) "u" [] ⟨[("v", ⟨"/p", .Read, ⟨[], 0⟩⟩)], []⟩ "/p" .Read).1
      = .error .invalidMode ∧
    Err.alreadyBusy ≠ Err.pathConflict ∧ Err.invalidMode ≠ Err.pathConflict := by
  decide

/-- C5 amended: provided the server's own UUID has no record yet and
the mode is admissible, a requestFileWrite on a path referenced by any
existing record - including one in Read mode - fails with the
path-conflict error and changes neither the registry nor the
filesystem. -/
theorem C5_path_conflict (norm : String → String) (srv : String) (fs : FileSys)
    (st : EtdState) (path : String) (mode : OpenMode)
    (hb : alookup srv st.transfers = none)
    (hm : allowedModes.contains mode = true)
    (hp : (findByPath (norm path) st.transfers).isSome = true) :
    requestFileWrite norm srv fs st path mode = (.error .pathConflict, st, fs) := by
  simp [requestFileWrite, hb, hm, hp]

/-- C5 witness: another service holds the path in Read mode; the write
request fails with the path conflict. -/
theorem C5_witness :
    requestFileWrite (fun p => p) "u" [] ⟨[("v", ⟨"/p", .Read, ⟨[], 0⟩⟩)], []⟩ "/p" .New
      = (.error .pathConflict, ⟨[("v", ⟨"/p", .Read, ⟨[], 0⟩⟩)], []⟩, []) :=
  C5_path_conflict (fun p => p) "u" [] ⟨[("v", ⟨"/p", .Read, ⟨[], 0⟩⟩)], []⟩ "/p" .New
    (by decide) (by decide) (by decide)

/-- C1 counterexample: with an empty registry, removing the service's
own UUID returns false on the local server but does not return false
through the proxy - the wrapper answers with an ERR line, which the
proxy turns into an error. -/
theorem C1_counterexample :
    (removeUUID "u" ⟨[], []⟩ "u").1 = .ok false ∧
    (proxyRemoveUUID "u" ⟨[], []⟩ "u").1 ≠ .ok false ∧
    (proxyRemoveUUID "u" ⟨[], []⟩ "u").1 = .error (.remoteErr "Failed to remove UUID") := by
  decide

/-- C1 amended: when no transfer record exists for the service's own
UUID, ETDServer::removeUUID returns false while ETDProxy::removeUUID
raises an error instead: the wrapper maps the false result to the
reply ERR Failed to remove UUID, and the proxy converts every ERR
reply into an exception (it can only ever return true). -/
theorem C1_remove_missing_uuid (srv : String) (st : EtdState)
    (h : alookup srv st.transfers = none) :
    (removeUUID srv st srv).1 = .ok false ∧
    (proxyRemoveUUID srv st srv).1 = .error (.remoteErr "Failed to remove UUID") := by
  have hloc : removeUUID srv st srv = (.ok false, st) := by
    simp [removeUUID, h]
  constructor
  · rw [hloc]
  · unfold proxyRemoveUUID wrapperRemoveUUIDLine
    rw [hloc]
    exact (by decide :
      proxyRemoveUUIDParse "ERR Failed to remove UUID"
        = .error (.remoteErr "Failed to remove UUID"))

/-- C1 witness: the concrete empty-registry instance. -/
theorem C1_witness :
    (removeUUID "w" ⟨[], []⟩ "w").1 = .ok false ∧
    (proxyRemoveUUID "w" ⟨[], []⟩ "w").1 = .error (.remoteErr "Failed to remove UUID") :=
  C1_remove_missing_uuid "w" ⟨[], []⟩ (by decide)

/-- C2 counterexample: in push_n a partial read is not retried even
though the remaining bytes are available on the next read: a first
read returning 5 of the requested 10 bytes fails the call at once. -/
theorem C2_counterexample :
    push_n 10 [5, 5] [10, 10] = .error .readMismatch ∧
    push_n 10 [5, 5] [10, 10] ≠ .ok () := by
  decide

/-- C2 amended: only pull_n retries partial transfers.  In push_n a
read or write transferring a count different from the requested
min(n, bufSz) fails the call at once; in sendFile's loop a file read
yielding fewer than the requested bytes fails the call at once; in
pull_n a short read is an error exactly in the zero-bytes-moved,
empty-buffer situation, so as long as every connection read returns at
least one byte pull_n never raises ShortRead. -/
theorem C2_partial_transfer_behaviour :
    (∀ (n r : Nat) (rs ws : List Nat), 0 < n → r ≠ min n dataBufSz →
      push_n n (r :: rs) ws = .error .readMismatch) ∧
    (∀ (n r w : Nat) (rs ws : List Nat), 0 < n → r = min n dataBufSz → w ≠ min n dataBufSz →
      push_n n (r :: rs) (w :: ws) = .error .writeMismatch) ∧
    (∀ (todo : Nat) (avail : List Nat), 0 < todo → avail.length < min todo dataBufSz →
      (sendChunks todo avail).1 = .error .readMismatch) ∧
    (∀ (bufSz n rdPos wrEnd : Nat) (rs ws : List Nat),
      rdPos ≤ wrEnd → wrEnd < bufSz → wrEnd - rdPos ≤ n → (∀ x ∈ rs, 0 < x) →
      pull_n bufSz rs ws n rdPos wrEnd ≠ .error .shortRead) := by
  refine ⟨?_, ?_, ?_, ?_⟩
  · intro n r rs ws hn hr
    cases n with
    | zero => omega
    | succ m =>
      simp only [push_n]
      rw [if_pos hr]
  · intro n r w rs ws hn hr hw
    cases n with
    | zero => omega
    | succ m =>
      simp only [push_n]
      rw [if_neg (by omega), if_pos hw]
  · intro todo avail ht ha
    cases todo with
    | zero => omega
    | succ m =>
      rw [sendChunks_succ, if_pos ha]
  · intro bufSz n rdPos wrEnd rs ws h1 h2 h3 h4
    exact pull_n_ne_shortRead rs ws bufSz n rdPos wrEnd h1 h2 h3 h4

/-- C2 witness: concrete instances of the four behaviours. -/
theorem C2_witness :
    push_n 7 [3] [] = .error .readMismatch ∧
    push_n 7 [7] [6] = .error .writeMismatch ∧
    (sendChunks 5 [1, 2]).1 = .error .readMismatch ∧
    pull_n 8 [2, 3] [2, 3] 5 0 0 ≠ .error .shortRead :=
  ⟨C2_partial_transfer_behaviour.1 7 3 [] [] (by decide) (by decide),
   C2_partial_transfer_behaviour.2.1 7 7 6 [] [] (by decide) (by decide) (by decide),
   C2_partial_transfer_behaviour.2.2.1 5 [1, 2] (by decide) (by decide),
   C2_partial_transfer_behaviour.2.2.2 8 5 0 0 [2, 3] [2, 3] (by decide) (by decide)
     (by decide) (by decide)⟩

/-- C4: every successful requestFileRead on the local server has
opened the file, positioned the descriptor of the inserted record at
offset alreadyHave (so in particular the seek succeeded: alreadyHave
is non-negative), and returned the server's own UUID together with
fileSize minus alreadyHave; when the seek fails the call fails, so no
successful call exists with a failing seek. -/
theorem C4_requestFileRead_success (norm : String → String) (srv : String)
    (fs : FileSys) (st : EtdState) (path : String) (ah : Int)
    (u : String) (r : Int) (st2 : EtdState) (fs2 : FileSys)
    (hcall : requestFileRead norm srv fs st path ah = (.ok (u, r), st2, fs2)) :
    u = srv ∧ 0 ≤ ah ∧
    ∃ content, alookup (norm path) fs = some content ∧
      r = (content.length : Int) - ah ∧
      alookup srv st2.transfers = some ⟨norm path, .Read, ⟨content, ah.toNat⟩⟩ := by
  simp only [requestFileRead] at hcall
  split at hcall
  · exact absurd hcall (by simp)
  · split at hcall
    · exact absurd hcall (by simp)
    · split at hcall
      · exact absurd hcall (by simp)
      · rename_i fs3 content heq
        have hcontent : alookup (norm path) fs = some content := by
          simp only [openFile] at heq
          split at heq
          · rename_i c hs
            injection heq with heq1
            injection heq1 with heq2 heq3
            rw [hs, heq3]
          · exact absurd heq (by simp)
        split at hcall
        · exact absurd hcall (by simp)
        · rename_i hseek
          simp only [Prod.mk.injEq, Except.ok.injEq] at hcall
          obtain ⟨⟨hu, hr⟩, hst, _⟩ := hcall
          refine ⟨hu.symm, by omega, content, hcontent, hr.symm, ?_⟩
          rw [← hst]
          simp [alookup]

/-- C4 witness: reading a three-byte file from offset 1. -/
theorem C4_witness :
    "u" = "u" ∧ 0 ≤ (1 : Int) ∧
    ∃ content, alookup "/f" [("/f", [1, 2, 3])] = some content ∧
      (2 : Int) = (content.length : Int) - 1 ∧
      alookup "u"
        ((requestFileRead (fun p => p) "u" [("/f", [1, 2, 3])] ⟨[], []⟩ "/f" 1).2.1.transfers)
        = some ⟨"/f", .Read, ⟨content, (1 : Int).toNat⟩⟩ :=
  C4_requestFileRead_success (fun p => p) "u" [("/f", [1, 2, 3])] ⟨[], []⟩ "/f" 1
    "u" 2 ⟨[("u", ⟨"/f", .Read, ⟨[1, 2, 3], 1⟩⟩)], []⟩ [("/f", [1, 2, 3])] (by decide)

/-- C10: requestFileRead accepts an alreadyHave beyond the end of the
file: with the seek succeeding past end-of-file the call succeeds and
returns the strictly negative remainder fileSize minus alreadyHave,
and the proxy's rxRemain reply parser accepts the corresponding
negative Remain line, recovering exactly that value. -/
theorem C10_read_past_end (norm : String → String) (srv : String) (fs : FileSys)
    (st : EtdState) (path : String) (ah : Int) (content : List Nat)
    (hb : alookup srv st.transfers = none)
    (hp : findByPath (norm path) st.transfers = none)
    (hf : alookup (norm path) fs = some content)
    (hlt : (content.length : Int) < ah) :
    (requestFileRead norm srv fs st path ah).1 = .ok (srv, (content.length : Int) - ah) ∧
    (content.length : Int) - ah < 0 ∧
    parseRemainLine ("Remain:" ++ intRepr ((content.length : Int) - ah)) =
      some ((content.length : Int) - ah) := by
  refine ⟨?_, by omega, parseRemain_intRepr _⟩
  have hb2 : (alookup srv st.transfers).isSome = false := by rw [hb]; rfl
  simp [requestFileRead, openFile, hb2, hp, hf, show ¬ (ah < 0) by omega]

/-- C10 witness: a three-byte file read with alreadyHave 5 yields
remainder -2, and the proxy parser accepts Remain:-2. -/
theorem C10_witness :
    (requestFileRead (fun p => p) "u" [("/f", [1, 2, 3])] ⟨[], []⟩ "/f" 5).1
      = .ok ("u", ((([1, 2, 3] : List Nat).length : Int) - 5)) ∧
    ((([1, 2, 3] : List Nat).length : Int) - 5) < 0 ∧
    parseRemainLine ("Remain:" ++ intRepr ((([1, 2, 3] : List Nat).length : Int) - 5)) =
      some ((([1, 2, 3] : List Nat).length : Int) - 5) :=
  C10_read_past_end (fun p => p) "u" [("/f", [1, 2, 3])] ⟨[], []⟩ "/f" 5 [1, 2, 3]
    (by decide) (by decide) (by decide) (by decide)

/-- C6: a data-channel header carrying a push key with any value other
than the string 1 makes the handler fail during header validation,
before the transfer map is consulted at all (the outcome is the same
error for every registry state); a header without a push key is
dispatched as a pull request. -/
theorem C6_push_value_validation :
    (∀ (kv : List (String × String)) (st st2 : EtdState) (v : String),
      kvLookup kv "push" = some v → v ≠ "1" →
      (dataServerDispatch kv st).isOk = false ∧
      dataServerDispatch kv st = dataServerDispatch kv st2) ∧
    (∀ (kv : List (String × String)) (st : EtdState) (u szs : String) (sz : Int)
       (record : TransferRecord),
      kvLookup kv "uuid" = some u → kvLookup kv "sz" = some szs →
      kvLookup kv "push" = none → string2off_t szs = some sz →
      alookup u st.transfers = some record →
      allowedWriteModes.contains record.openMode = true →
      dataServerDispatch kv st = .ok (false, u, sz, record)) := by
  constructor
  · intro kv st st2 v hv hne
    have hval : ∃ e, validateDataCmd kv = .error e := by
      unfold validateDataCmd
      rcases kvLookup kv "uuid" with _ | u
      · exact ⟨_, rfl⟩
      · rcases kvLookup kv "sz" with _ | szs
        · exact ⟨_, rfl⟩
        · rw [hv]
          dsimp only
          rw [if_pos hne]
          exact ⟨_, rfl⟩
    obtain ⟨e, he⟩ := hval
    constructor
    · simp [dataServerDispatch, he, Except.isOk, Except.toBool]
    · simp [dataServerDispatch, he]
  · intro kv st u szs sz record h1 h2 h3 h4 h5 h6
    simp [dataServerDispatch, validateDataCmd, h1, h2, h3, h4, h5, h6]

/-- C6 witness: a header with push:2 is rejected identically on two
different registries, and a pushless header with a New-mode record
dispatches as a pull. -/
theorem C6_witness :
    ((dataServerDispatch [("uuid", "u"), ("sz", "5"), ("push", "2")]
        ⟨[("u", ⟨"/p", .New, ⟨[], 0⟩⟩)], []⟩).isOk = false ∧
     dataServerDispatch [("uuid", "u"), ("sz", "5"), ("push", "2")]
        ⟨[("u", ⟨"/p", .New, ⟨[], 0⟩⟩)], []⟩
       = dataServerDispatch [("uuid", "u"), ("sz", "5"), ("push", "2")] ⟨[], []⟩) ∧
    dataServerDispatch [("uuid", "u"), ("sz", "5")] ⟨[("u", ⟨"/p", .New, ⟨[], 0⟩⟩)], []⟩
      = .ok (false, "u", 5, ⟨"/p", .New, ⟨[], 0⟩⟩) :=
  ⟨C6_push_value_validation.1 [("uuid", "u"), ("sz", "5"), ("push", "2")]
      ⟨[("u", ⟨"/p", .New, ⟨[], 0⟩⟩)], []⟩ ⟨[], []⟩ "2" (by decide) (by decide),
   C6_push_value_validation.2 [("uuid", "u"), ("sz", "5")]
      ⟨[("u", ⟨"/p", .New, ⟨[], 0⟩⟩)], []⟩ "u" "5" 5 ⟨"/p", .New, ⟨[], 0⟩⟩
      (by decide) (by decide) (by decide) (by decide) (by decide) (by decide)⟩

/-- C3: every successful sendFile with a positive byte count on a
Read-mode record writes to the data connection exactly the header
followed by exactly n bytes taken from the file at its current
position, and then reads exactly one acknowledgement byte. -/
theorem C3_sendFile_wire_format (srv dst src : String) (st : EtdState) (n : Int)
    (tr : TransferRecord) (w : List Nat) (k : Nat)
    (hlk : alookup srv st.transfers = some tr)
    (hn : 0 < n)
    (hcall : sendFile srv st src dst n true = (.ok true, w, k)) :
    w = strBytes (mkHeader dst n) ++ (tr.fd.content.drop tr.fd.pos).take n.toNat ∧
    ((tr.fd.content.drop tr.fd.pos).take n.toNat).length = n.toNat ∧
    k = 1 := by
  simp only [sendFile] at hcall
  split at hcall
  · exact absurd hcall (by simp)
  · rw [if_neg (by omega), hlk] at hcall
    dsimp only at hcall
    split at hcall
    · exact absurd hcall (by simp)
    · rw [if_neg (by simp)] at hcall
      by_cases hlen : n.toNat ≤ (tr.fd.content.drop tr.fd.pos).length
      · rw [sendChunks_ok n.toNat _ hlen] at hcall
        dsimp only at hcall
        simp only [Prod.mk.injEq, Except.ok.injEq, true_and] at hcall
        obtain ⟨hw, hk⟩ := hcall
        refine ⟨hw.symm, ?_, hk.symm⟩
        rw [List.length_take]
        omega
      · have herr := sendChunks_err n.toNat (tr.fd.content.drop tr.fd.pos) (by omega)
        rw [herr] at hcall
        exact absurd hcall (by simp)

/-- C3 witness: sending two bytes of a three-byte file: the wire bytes
are the header for uuid d and size 2 followed by the first two file
bytes, and one acknowledgement byte is read. -/
theorem C3_witness :
    ([123, 32, 117, 117, 105, 100, 58, 100, 44, 32, 115, 122, 58, 50, 125, 10, 20] : List Nat)
        = strBytes (mkHeader "d" 2)
          ++ (((⟨"/f", .Read, ⟨[10, 20, 30], 0⟩⟩ : TransferRecord).fd.content.drop
                (⟨"/f", .Read, ⟨[10, 20, 30], 0⟩⟩ : TransferRecord).fd.pos).take (2 : Int).toNat) ∧
    ((((⟨"/f", .Read, ⟨[10, 20, 30], 0⟩⟩ : TransferRecord).fd.content.drop
        (⟨"/f", .Read, ⟨[10, 20, 30], 0⟩⟩ : TransferRecord).fd.pos).take (2 : Int).toNat).length
      = (2 : Int).toNat) ∧
    (1 : Nat) = 1 :=
  C3_sendFile_wire_format "u" "d" "u" ⟨[("u", ⟨"/f", .Read, ⟨[10, 20, 30], 0⟩⟩)], []⟩ 2
    ⟨"/f", .Read, ⟨[10, 20, 30], 0⟩⟩
    [123, 32, 117, 117, 105, 100, 58, 100, 44, 32, 115, 122, 58, 50, 125, 10, 20] 1
    (by decide) (by decide) (by decide)

/-- C7 counterexample: the address designator round trip fails for a
valid SockName with a bracketed IPv6 host: decode_data_addr strips the
brackets, so decoding the wire encoding of (tcp, left-bracket colon
colon 1 right-bracket, 80) yields the host without its brackets. -/
theorem C7_counterexample :
    validSockName ⟨"tcp", "[::1]", 80⟩ ∧
    decode_data_addr (encode_data_addr ⟨"tcp", "[::1]", 80⟩) ≠ some ⟨"tcp", "[::1]", 80⟩ ∧
    decode_data_addr (encode_data_addr ⟨"tcp", "[::1]", 80⟩) = some ⟨"tcp", "::1", 80⟩ := by
  constructor
  · refine ⟨by decide, by decide, Or.inl (by decide), by decide⟩
  · exact ⟨by decide, by decide⟩

/-- C7 amended: the round trip decode(encode(sn)) = sn holds for every
valid SockName whose host is an RFC1123 DNS name; for bracketed IPv6
hosts the decoder returns the host with its brackets stripped. -/
theorem C7_roundtrip_dns (sn : SockName) (hv : validSockName sn)
    (hdns : validHost sn.host.data = true) :
    decode_data_addr (encode_data_addr sn) = some sn := by
  obtain ⟨prot, host, port⟩ := sn
  obtain ⟨hp1, hp2, hhost, -⟩ := hv
  simp only at hp1 hp2 hdns
  have hlen : host.data.length ≤ 255 := by
    rcases hhost with hbr | ⟨-, hl⟩
    · rw [bracketForm_of_validHost hdns] at hbr
      exact absurd hbr (by simp)
    · exact hl
  have hD1 : natDigits port ≠ [] := natDigits_ne_nil port
  have hDd : ∀ c ∈ natDigits port, c.isDigit = true := natDigits_isDigit port
  have hDcolon : ':' ∉ natDigits port := fun hm =>
    absurd rfl (isDigit_ne_colon (hDd ':' hm))
  show decode_data_addr (String.mk ('<' ::
      (prot.data ++ '/' :: (host.data ++ ':' :: (natDigits port ++ ['>']))))) = _
  have hrest : prot.data ++ '/' :: (host.data ++ ':' :: (natDigits port ++ ['>']))
      = (prot.data ++ '/' :: (host.data ++ ':' :: natDigits port)) ++ ['>'] := by
    simp
  have hcond : (decide (natDigits port ≠ []) && (natDigits port).all Char.isDigit &&
      (bracketForm host.data || (validHost host.data && decide (host.data.length ≤ 255))))
      = true := by
    simp only [Bool.and_eq_true, Bool.or_eq_true, decide_eq_true_eq, List.all_eq_true]
    exact ⟨⟨hD1, hDd⟩, Or.inr ⟨hdns, hlen⟩⟩
  simp only [decode_data_addr, dataOfMk, hrest, List.getLast?_concat, List.dropLast_concat,
    splitFirst_not_mem '/' prot.data (host.data ++ ':' :: natDigits port) hp2,
    splitLast_not_mem ':' host.data (natDigits port) hDcolon]
  simp only [if_true]
  rw [if_neg hp1, if_pos hcond, unbracket_of_validHost hdns, digitsToNat_natDigits,
    mkOfData, mkOfData]

/-- C7 witness: the round trip on a DNS-hosted address. -/
theorem C7_witness :
    decode_data_addr (encode_data_addr ⟨"tcp", "example.com", 2620⟩)
      = some ⟨"tcp", "example.com", 2620⟩ :=
  C7_roundtrip_dns ⟨"tcp", "example.com", 2620⟩
    ⟨by decide, by decide, Or.inr ⟨by decide, by decide⟩, by decide⟩ (by decide)

end Etdc
